import Mathlib

/-
Verification of the prediction scoring and leaderboard engine of the
World Cup 2026 API backend.  The definitions below are a shallow
embedding of the scoring, aggregation and ranking code of the server
(the main server file, referenced here as part_000, together with the
older server.js variant where noted).  Persistent MongoDB collections
are modelled as Lean lists of records; each route handler or helper
function becomes a pure state transformer on a `ServerState`.
-/

namespace WorldCup

/-- Predicted or actual winner of a match, the `winnerPred` enum
(`HOME` / `AWAY` / `DRAW`) of the MatchPrediction schema. -/
inductive Winner
  | HOME
  | AWAY
  | DRAW
deriving DecidableEq, Repr

/-- Match status enum of the Match schema. -/
inductive MatchStatus
  | Scheduled
  | Live
  | Finished
  | Postponed
  | Cancelled
deriving DecidableEq, Repr

/-- Phase enum of the Match schema. -/
inductive Phase
  | GroupStage
  | RoundOf32
  | RoundOf16
  | QuarterFinals
  | SemiFinals
  | ThirdPlace
  | Final
deriving DecidableEq, Repr

/-- Stage enum of the KnockoutPrediction schema (the six knockout
phases). -/
inductive Stage
  | RoundOf32
  | RoundOf16
  | QuarterFinals
  | SemiFinals
  | ThirdPlace
  | Final
deriving DecidableEq, Repr

/-- Match document.  ObjectIds are modelled as naturals; `homeScore`
and `awayScore` default to `null` in the schema, hence `Option Int`. -/
structure MatchRec where
  id : Nat
  homeTeam : Nat
  awayTeam : Nat
  homeScore : Option Int
  awayScore : Option Int
  phase : Phase
  status : MatchStatus
deriving DecidableEq, Repr

/-- User document: the three aggregate fields maintained by the
scoring engine (`totalPoints`, `correctMatches`, `correctScores`). -/
structure UserRec where
  id : Nat
  totalPoints : Int
  correctMatches : Int
  correctScores : Int
deriving DecidableEq, Repr

/-- MatchPrediction document. -/
structure MatchPred where
  id : Nat
  user : Nat
  matchId : Nat
  homeGoalsPred : Int
  awayGoalsPred : Int
  winnerPred : Winner
  pointsAwarded : Int
  isCorrectWinner : Bool
  isCorrectScore : Bool
deriving DecidableEq, Repr

/-- GroupPrediction document; `thirdPlaceTeam` is optional (default
`null`). -/
structure GroupPred where
  id : Nat
  user : Nat
  group : Char
  firstPlaceTeam : Nat
  secondPlaceTeam : Nat
  thirdPlaceTeam : Option Nat
  pointsAwarded : Int
deriving DecidableEq, Repr

/-- KnockoutPrediction document; the linked `match` reference is
optional (default `null`). -/
structure KnockoutPred where
  id : Nat
  user : Nat
  stage : Stage
  matchRef : Option Nat
  predictedWinnerTeam : Nat
  pointsAwarded : Int
deriving DecidableEq, Repr

/-- TournamentPrediction document (at most one per user by the unique
index on `user`); only the fields the scoring engine reads. -/
structure TournamentPred where
  id : Nat
  user : Nat
  pointsAwarded : Int
deriving DecidableEq, Repr

/-- Whole persistent store: the collections the scoring engine reads
and writes. -/
@[ext] structure ServerState where
  users : List UserRec
  matchRecs : List MatchRec
  matchPreds : List MatchPred
  groupPreds : List GroupPred
  knockoutPreds : List KnockoutPred
  tournamentPreds : List TournamentPred
deriving DecidableEq, Repr

/-- JavaScript relational comparison `a > b` on possibly-null numbers:
`ToNumber(null) = 0`, so a null operand compares as `0`. -/
def jsGt (a b : Option Int) : Bool :=
  a.getD 0 > b.getD 0

/-- JavaScript strict equality `a === b` between a number and a
possibly-null number: `null` is strictly equal to no number. -/
def jsStrictEq (a : Int) : Option Int → Bool
  | some b => a == b
  | none => false

/-- Function `computeActualWinner(match)` (part_000 lines 409-413):
home greater gives HOME, away greater gives AWAY, otherwise DRAW. -/
def computeActualWinner (homeScore awayScore : Option Int) : Winner :=
  if jsGt homeScore awayScore then Winner.HOME
  else if jsGt awayScore homeScore then Winner.AWAY
  else Winner.DRAW

/-- Loop body of `calculateMatchPointsForAllUsers` (part_000 lines
1649-1661): overwrite the prediction with freshly computed
`pointsAwarded`, `isCorrectWinner`, `isCorrectScore`. -/
def scoreMatchPrediction (m : MatchRec) (p : MatchPred) : MatchPred :=
  let actualWinner := computeActualWinner m.homeScore m.awayScore
  let icw : Bool := decide (p.winnerPred = actualWinner)
  let ics : Bool := icw && jsStrictEq p.homeGoalsPred m.homeScore
      && jsStrictEq p.awayGoalsPred m.awayScore
  let points : Int := (if icw then 3 else 0) + (if ics then 5 else 0)
  { p with pointsAwarded := points, isCorrectWinner := icw, isCorrectScore := ics }

/-- Derived aggregate triple `(totalPoints, correctMatches,
correctScores)` computed by `recalcUserTotals` (part_000 lines
419-431) from the four prediction collections.  The JavaScript
`p.pointsAwarded || 0` is the identity here because the schema field
is a number defaulting to 0; the tournament prediction is read with
`findOne` (the first document of the user, if any). -/
def recalcTotals (gp : List GroupPred) (mp : List MatchPred)
    (kp : List KnockoutPred) (tp : List TournamentPred) (uid : Nat) :
    Int × Int × Int :=
  let groupPreds := gp.filter (fun p => p.user == uid)
  let matchPreds := mp.filter (fun p => p.user == uid)
  let knockoutPreds := kp.filter (fun p => p.user == uid)
  let tournamentPred := tp.find? (fun p => p.user == uid)
  let totalPoints : Int :=
    (groupPreds.map (fun p => p.pointsAwarded)).sum
    + (matchPreds.map (fun p => p.pointsAwarded)).sum
    + (knockoutPreds.map (fun p => p.pointsAwarded)).sum
    + (match tournamentPred with
       | some p => p.pointsAwarded
       | none => 0)
  let correctMatches : Int := (matchPreds.filter (fun p => p.isCorrectWinner)).length
  let correctScores : Int := (matchPreds.filter (fun p => p.isCorrectScore)).length
  (totalPoints, correctMatches, correctScores)

/-- Assignment of the three derived aggregate fields onto a user
document (part_000 lines 433-435). -/
def setAggregates (u : UserRec) (a : Int × Int × Int) : UserRec :=
  { u with totalPoints := a.1, correctMatches := a.2.1, correctScores := a.2.2 }

/-- Function `recalcUserTotals(userId)` (part_000 lines 415-439):
look the user up; when absent return without writing; otherwise
recompute all three aggregates from the prediction collections and
save them onto the user document. -/
def recalcUserTotals (s : ServerState) (uid : Nat) : ServerState :=
  match s.users.find? (fun u => u.id == uid) with
  | none => s
  | some _ =>
    { s with users := s.users.map (fun u =>
        if u.id == uid then
          setAggregates u (recalcTotals s.groupPreds s.matchPreds s.knockoutPreds s.tournamentPreds uid)
        else u) }

/-- JavaScript `[...new Set(list)]`: deduplication keeping the first
occurrence of each element. -/
def jsSetDedup : List Nat → List Nat
  | [] => []
  | a :: l => a :: jsSetDedup (l.filter (fun b => b ≠ a))
termination_by l => l.length
decreasing_by
  simp only [List.length_cons]
  exact Nat.lt_succ_of_le (List.length_filter_le _ _)

/-- Loop `for (const uid of affectedUserIds) await recalcUserTotals(uid)`
(part_000 lines 1665-1667). -/
def foldRecalc (s : ServerState) (uids : List Nat) : ServerState :=
  uids.foldl recalcUserTotals s

/-- Function `calculateMatchPointsForAllUsers(matchId)` (part_000
lines 1642-1668): return early unless the match exists and is
Finished; overwrite every prediction of this match with its freshly
computed score and flags; then recompute the aggregates of each
affected user. -/
def calculateMatchPointsForAllUsers (s : ServerState) (mid : Nat) : ServerState :=
  match s.matchRecs.find? (fun m => m.id == mid) with
  | none => s
  | some m =>
    if m.status = MatchStatus.Finished then
      let affected := jsSetDedup ((s.matchPreds.filter (fun p => p.matchId == m.id)).map (fun p => p.user))
      let s1 := { s with matchPreds := s.matchPreds.map (fun p =>
          if p.matchId == m.id then scoreMatchPrediction m p else p) }
      foldRecalc s1 affected
    else s

/-- Final standings of one group as supplied in the request body
(`actualStandings` / `groupResults[g]`), as team ids. -/
structure GroupStandings where
  first : Nat
  second : Nat
  third : Nat
deriving DecidableEq, Repr

/-- Group scoring computation shared verbatim by the
`POST /api/predictions/groups/calculate-points` handler (part_000
lines 1117-1138) and the `POST /api/admin/recalculate-group-points`
handler (part_000 lines 1684-1688): 5 for a correct first place, 3
for a correct second, 2 for a correct third (only when a third-place
team was predicted), and a +5 bonus exactly when the raw sum is 10. -/
def groupPointsFor (p : GroupPred) (st : GroupStandings) : Int :=
  let afterFirst : Int := if p.firstPlaceTeam = st.first then 5 else 0
  let afterSecond : Int := afterFirst + (if p.secondPlaceTeam = st.second then 3 else 0)
  let afterThird : Int := afterSecond +
    (match p.thirdPlaceTeam with
     | some t => if t = st.third then 2 else 0
     | none => 0)
  if afterThird = 10 then afterThird + 5 else afterThird

/-- Handler `POST /api/predictions/groups/calculate-points` (part_000
lines 1105-1159): find the caller's prediction for the group (404 when
absent, modelled as no state change), overwrite its `pointsAwarded`,
then write `user.totalPoints = (user.totalPoints || 0) - oldPoints + points`
directly onto the user document, without calling `recalcUserTotals`.
The user lookup cannot fail for an authenticated session; a missing
user would throw after the prediction was already saved, modelled by
returning the state with only the prediction updated. -/
def calcGroupPointsEndpoint (s : ServerState) (uid : Nat) (g : Char)
    (st : GroupStandings) : ServerState :=
  match s.groupPreds.find? (fun p => p.user == uid && p.group == g) with
  | none => s
  | some pred =>
    let points := groupPointsFor pred st
    let oldPoints := pred.pointsAwarded
    let s1 : ServerState := { s with groupPreds := s.groupPreds.map (fun q =>
        if q.id == pred.id then { q with pointsAwarded := points } else q) }
    match s1.users.find? (fun u => u.id == uid) with
    | none => s1
    | some _ =>
      { s1 with users := s1.users.map (fun u =>
          if u.id == uid then { u with totalPoints := u.totalPoints - oldPoints + points } else u) }

/-- Stage point table `phasePoints` of the knockout results handler
(part_000 lines 1309-1316). -/
def phasePoints : Stage → Int
  | Stage.RoundOf32 => 1
  | Stage.RoundOf16 => 2
  | Stage.QuarterFinals => 3
  | Stage.SemiFinals => 5
  | Stage.ThirdPlace => 3
  | Stage.Final => 10

/-- Membership of a match phase in the knockout phase list used by the
knockout results query (part_000 line 1291). -/
def isKnockoutPhase : Phase → Bool
  | Phase.GroupStage => false
  | _ => true

/-- Winner id recorded into `realById` for a played knockout match
(part_000 lines 1297-1305): the home team when home leads, the away
team when away leads, and `null` (no winner) on equal scores. -/
def koWinnerId (m : MatchRec) : Option Nat :=
  if jsGt m.homeScore m.awayScore then some m.homeTeam
  else if jsGt m.awayScore m.homeScore then some m.awayTeam
  else none

/-- Per-prediction result of `GET /api/predictions/knockout/results`
(part_000 lines 1322-1346): the pair `(isCorrect, pointsEarned)`.
`isCorrect` stays `null` when the prediction has no linked match, the
linked match is not a finished knockout match, or the match ended in a
draw (no winner); otherwise it records whether the predicted winner
matches, and a correct guess earns the stage value.  The JavaScript
`phasePoints[p.stage] || 1` fallback is dead code because `stage` is
schema-restricted to the six keys of the table. -/
def knockoutEval (ms : List MatchRec) (p : KnockoutPred) : Option Bool × Int :=
  let played := ms.filter (fun m => isKnockoutPhase m.phase && decide (m.status = MatchStatus.Finished))
  match p.matchRef with
  | none => (none, 0)
  | some mid =>
    match played.find? (fun m => m.id == mid) with
    | none => (none, 0)
    | some m =>
      match koWinnerId m with
      | none => (none, 0)
      | some wid =>
        let ic : Bool := p.predictedWinnerTeam == wid
        (some ic, if ic then phasePoints p.stage else 0)

/-- Mongo `$or` filter of `GET /api/leaderboard/my-position` (part_000
lines 1542-1552): v ranks strictly better than u. -/
def jsBetter (v u : UserRec) : Bool :=
  decide (v.totalPoints > u.totalPoints)
  || (v.totalPoints == u.totalPoints && decide (v.correctScores > u.correctScores))
  || (v.totalPoints == u.totalPoints && v.correctScores == u.correctScores
      && decide (v.correctMatches > u.correctMatches))

/-- Count `betterUsers` of the my-position handler (part_000 lines
1542-1552), a `countDocuments` over the whole user collection. -/
def betterUsersCount (users : List UserRec) (u : UserRec) : Nat :=
  (users.filter (fun v => jsBetter v u)).length

/-- Position `betterUsers + 1` (part_000 line 1554). -/
def myPosition (users : List UserRec) (u : UserRec) : Nat :=
  betterUsersCount users u + 1

/-- Count `totalUsers = countDocuments({ totalPoints: { $gt: 0 } })`
(part_000 line 1555). -/
def rankedUsersCount (users : List UserRec) : Nat :=
  (users.filter (fun v => decide (v.totalPoints > 0))).length

/-- JavaScript `Math.round`: round half toward positive infinity. -/
def jsRound (q : ℚ) : Int :=
  ⌊q + 1/2⌋

/-- Percentile of the my-position handler (part_000 line 1563):
`totalUsers > 0 ? Math.round((1 - position / totalUsers) * 100) : 0`. -/
def myPercentile (users : List UserRec) (u : UserRec) : Int :=
  let t := rankedUsersCount users
  if t > 0 then jsRound ((1 - (myPosition users u : ℚ) / (t : ℚ)) * 100) else 0

/-- Sort comparison of `GET /api/leaderboard` (part_000 line 1578):
descending on `totalPoints`, then `correctScores`, then
`correctMatches`; v may precede u when u does not rank strictly
better. -/
def lbOrder (v u : UserRec) : Bool :=
  ! jsBetter u v

/-- Ordered user list produced by the leaderboard sort (part_000
lines 1577-1581). -/
def leaderboardSorted (users : List UserRec) : List UserRec :=
  users.mergeSort lbOrder

/-- Page of `GET /api/leaderboard` (part_000 lines 1571-1592): skip
`(page-1)*limit`, take `limit`, and attach `position = skip + i + 1`
to the entry at index `i` of the slice. -/
def leaderboardPage (users : List UserRec) (page limit : Nat) :
    List (Nat × UserRec) :=
  let skip := (page - 1) * limit
  ((((leaderboardSorted users).drop skip).take limit).enum).map
    (fun e => (skip + e.1 + 1, e.2))

/-- Scoring loop of `calculateMatchPointsForAllUsers` with the
possibility that a `pred.save()` call rejects (`failIds` is the set of
prediction ids whose save throws).  The loop body has no per-item
try/catch, so the first throw aborts the iteration: documents saved
before it keep their new values, the failing document and every later
one keep their old values, and the error is reported.  Returns the
resulting prediction collection and the id of the failing prediction,
when any. -/
def scorePredsLoop (failIds : List Nat) (m : MatchRec) :
    List MatchPred → List MatchPred × Option Nat
  | [] => ([], none)
  | p :: ps =>
    if p.matchId == m.id then
      if failIds.contains p.id then (p :: ps, some p.id)
      else
        let r := scorePredsLoop failIds m ps
        (scoreMatchPrediction m p :: r.1, r.2)
    else
      let r := scorePredsLoop failIds m ps
      (p :: r.1, r.2)

/-- Function `calculateMatchPointsForAllUsers` together with the save
failure model: on a save rejection the exception propagates out of the
function (the caller's catch answers 500), so the recalculation loop
never runs and no success/failure summary is produced; the second
component is the id of the failing prediction, `none` on success. -/
def calculateMatchPointsE (failIds : List Nat) (s : ServerState) (mid : Nat) :
    ServerState × Option Nat :=
  match s.matchRecs.find? (fun m => m.id == mid) with
  | none => (s, none)
  | some m =>
    if m.status = MatchStatus.Finished then
      let affected := jsSetDedup ((s.matchPreds.filter (fun p => p.matchId == m.id)).map (fun p => p.user))
      let r := scorePredsLoop failIds m s.matchPreds
      match r.2 with
      | some e => ({ s with matchPreds := r.1 }, some e)
      | none => (foldRecalc { s with matchPreds := r.1 } affected, none)
    else (s, none)

/-! Helper lemmas about the aggregate-update machinery. -/

/-- Pointwise user update performed by one `recalcUserTotals` call for
user id `a`, with `f` giving the recomputed aggregate triple. -/
def applyAggStep (f : Nat → Int × Int × Int) (u : UserRec) (a : Nat) : UserRec :=
  if u.id == a then setAggregates u (f a) else u

/-- Pointwise effect on one user document of running `recalcUserTotals`
for every id of `uids` in order (with fixed prediction collections). -/
def applyAggList (f : Nat → Int × Int × Int) (uids : List Nat) (u : UserRec) : UserRec :=
  uids.foldl (applyAggStep f) u

theorem setAggregates_id (u : UserRec) (a : Int × Int × Int) :
    (setAggregates u a).id = u.id := rfl

theorem setAggregates_setAggregates (u : UserRec) (a b : Int × Int × Int) :
    setAggregates (setAggregates u a) b = setAggregates u b := rfl

theorem applyAggStep_id (f : Nat → Int × Int × Int) (u : UserRec) (a : Nat) :
    (applyAggStep f u a).id = u.id := by
  unfold applyAggStep
  split <;> rfl

theorem applyAggList_closed (f : Nat → Int × Int × Int) (uids : List Nat) (u : UserRec) :
    applyAggList f uids u = if u.id ∈ uids then setAggregates u (f u.id) else u := by
  induction uids generalizing u with
  | nil => simp [applyAggList]
  | cons a t ih =>
    have step : applyAggList f (a :: t) u = applyAggList f t (applyAggStep f u a) := rfl
    rw [step, ih]
    by_cases h : u.id = a
    · subst h
      simp only [applyAggStep, beq_self_eq_true, if_true]
      by_cases hm : u.id ∈ t
      · simp [hm, setAggregates_id, setAggregates_setAggregates]
      · simp [hm, setAggregates_id]
    · have hb : (u.id == a) = false := by simp [h]
      simp only [applyAggStep, hb, Bool.false_eq_true, if_false]
      simp [List.mem_cons, h]

theorem applyAggList_idem (f : Nat → Int × Int × Int) (uids : List Nat) (u : UserRec) :
    applyAggList f uids (applyAggList f uids u) = applyAggList f uids u := by
  simp only [applyAggList_closed]
  by_cases h : u.id ∈ uids
  · simp [h, setAggregates_id, setAggregates_setAggregates]
  · simp [h]

/-- Aggregate triple recomputed from the prediction collections of a
state. -/
def aggOf (s : ServerState) (uid : Nat) : Int × Int × Int :=
  recalcTotals s.groupPreds s.matchPreds s.knockoutPreds s.tournamentPreds uid

theorem recalcUserTotals_matchRecs (s : ServerState) (uid : Nat) :
    (recalcUserTotals s uid).matchRecs = s.matchRecs := by
  unfold recalcUserTotals
  cases s.users.find? (fun u => u.id == uid) <;> rfl

theorem recalcUserTotals_matchPreds (s : ServerState) (uid : Nat) :
    (recalcUserTotals s uid).matchPreds = s.matchPreds := by
  unfold recalcUserTotals
  cases s.users.find? (fun u => u.id == uid) <;> rfl

theorem recalcUserTotals_groupPreds (s : ServerState) (uid : Nat) :
    (recalcUserTotals s uid).groupPreds = s.groupPreds := by
  unfold recalcUserTotals
  cases s.users.find? (fun u => u.id == uid) <;> rfl

theorem recalcUserTotals_knockoutPreds (s : ServerState) (uid : Nat) :
    (recalcUserTotals s uid).knockoutPreds = s.knockoutPreds := by
  unfold recalcUserTotals
  cases s.users.find? (fun u => u.id == uid) <;> rfl

theorem recalcUserTotals_tournamentPreds (s : ServerState) (uid : Nat) :
    (recalcUserTotals s uid).tournamentPreds = s.tournamentPreds := by
  unfold recalcUserTotals
  cases s.users.find? (fun u => u.id == uid) <;> rfl

theorem aggOf_recalcUserTotals (s : ServerState) (uid a : Nat) :
    aggOf (recalcUserTotals s uid) a = aggOf s a := by
  unfold aggOf
  rw [recalcUserTotals_groupPreds, recalcUserTotals_matchPreds,
    recalcUserTotals_knockoutPreds, recalcUserTotals_tournamentPreds]

theorem recalcUserTotals_users (s : ServerState) (uid : Nat) :
    (recalcUserTotals s uid).users
      = s.users.map (fun u => applyAggStep (aggOf s) u uid) := by
  unfold recalcUserTotals
  cases h : s.users.find? (fun u => u.id == uid) with
  | none =>
    have hall := List.find?_eq_none.mp h
    have : ∀ u ∈ s.users, u = applyAggStep (aggOf s) u uid := by
      intro u hu
      have hb : (u.id == uid) = false := by
        have := hall u hu
        simpa using this
      simp [applyAggStep, hb]
    calc s.users = s.users.map id := (List.map_id _).symm
      _ = s.users.map (fun u => applyAggStep (aggOf s) u uid) := by
          apply List.map_congr_left
          intro u hu
          exact (this u hu)
  | some u =>
    rfl

theorem foldRecalc_matchRecs (s : ServerState) (uids : List Nat) :
    (foldRecalc s uids).matchRecs = s.matchRecs := by
  induction uids generalizing s with
  | nil => rfl
  | cons a t ih =>
    show (foldRecalc (recalcUserTotals s a) t).matchRecs = s.matchRecs
    rw [ih, recalcUserTotals_matchRecs]

theorem foldRecalc_matchPreds (s : ServerState) (uids : List Nat) :
    (foldRecalc s uids).matchPreds = s.matchPreds := by
  induction uids generalizing s with
  | nil => rfl
  | cons a t ih =>
    show (foldRecalc (recalcUserTotals s a) t).matchPreds = s.matchPreds
    rw [ih, recalcUserTotals_matchPreds]

theorem foldRecalc_groupPreds (s : ServerState) (uids : List Nat) :
    (foldRecalc s uids).groupPreds = s.groupPreds := by
  induction uids generalizing s with
  | nil => rfl
  | cons a t ih =>
    show (foldRecalc (recalcUserTotals s a) t).groupPreds = s.groupPreds
    rw [ih, recalcUserTotals_groupPreds]

theorem foldRecalc_knockoutPreds (s : ServerState) (uids : List Nat) :
    (foldRecalc s uids).knockoutPreds = s.knockoutPreds := by
  induction uids generalizing s with
  | nil => rfl
  | cons a t ih =>
    show (foldRecalc (recalcUserTotals s a) t).knockoutPreds = s.knockoutPreds
    rw [ih, recalcUserTotals_knockoutPreds]

theorem foldRecalc_tournamentPreds (s : ServerState) (uids : List Nat) :
    (foldRecalc s uids).tournamentPreds = s.tournamentPreds := by
  induction uids generalizing s with
  | nil => rfl
  | cons a t ih =>
    show (foldRecalc (recalcUserTotals s a) t).tournamentPreds = s.tournamentPreds
    rw [ih, recalcUserTotals_tournamentPreds]

theorem aggOf_foldRecalc (s : ServerState) (uids : List Nat) (a : Nat) :
    aggOf (foldRecalc s uids) a = aggOf s a := by
  unfold aggOf
  rw [foldRecalc_groupPreds, foldRecalc_matchPreds,
    foldRecalc_knockoutPreds, foldRecalc_tournamentPreds]

theorem foldRecalc_users (s : ServerState) (uids : List Nat) :
    (foldRecalc s uids).users = s.users.map (applyAggList (aggOf s) uids) := by
  induction uids generalizing s with
  | nil =>
    show s.users = s.users.map (applyAggList (aggOf s) [])
    calc s.users = s.users.map id := (List.map_id _).symm
      _ = s.users.map (applyAggList (aggOf s) []) := List.map_congr_left (fun _ _ => rfl)
  | cons a t ih =>
    show (foldRecalc (recalcUserTotals s a) t).users = _
    rw [ih, recalcUserTotals_users]
    have hagg : aggOf (recalcUserTotals s a) = aggOf s := by
      funext x
      exact aggOf_recalcUserTotals s a x
    rw [hagg, List.map_map]
    apply List.map_congr_left
    intro u _
    rfl

theorem foldRecalc_idem (s : ServerState) (uids : List Nat) :
    foldRecalc (foldRecalc s uids) uids = foldRecalc s uids := by
  ext1
  · rw [foldRecalc_users (foldRecalc s uids) uids, foldRecalc_users s uids]
    have hagg : aggOf (foldRecalc s uids) = aggOf s := by
      funext x
      exact aggOf_foldRecalc s uids x
    rw [hagg, List.map_map]
    apply List.map_congr_left
    intro u _
    simpa using applyAggList_idem (aggOf s) uids u
  · rw [foldRecalc_matchRecs, foldRecalc_matchRecs]
  · rw [foldRecalc_matchPreds, foldRecalc_matchPreds]
  · rw [foldRecalc_groupPreds, foldRecalc_groupPreds]
  · rw [foldRecalc_knockoutPreds, foldRecalc_knockoutPreds]
  · rw [foldRecalc_tournamentPreds, foldRecalc_tournamentPreds]

theorem filter_singleton_of_mem {α : Type} [DecidableEq α] (l : List α) (q : α → Bool) (x : α)
    (hlen : (l.filter q).length ≤ 1) (hx : x ∈ l) (hqx : q x = true) :
    l.filter q = [x] := by
  have hmem : x ∈ l.filter q := List.mem_filter.mpr ⟨hx, hqx⟩
  match hfil : l.filter q with
  | [] => rw [hfil] at hmem; cases hmem
  | [y] =>
    rw [hfil] at hmem
    have : x = y := by simpa using hmem
    rw [this]
  | y :: z :: t =>
    rw [hfil] at hlen
    simp at hlen

theorem tournament_findOne_sum (tp : List TournamentPred) (uid : Nat)
    (h : (tp.filter (fun p => p.user == uid)).length ≤ 1) :
    (match tp.find? (fun p => p.user == uid) with
     | some p => p.pointsAwarded
     | none => 0)
      = ((tp.filter (fun p => p.user == uid)).map (fun p => p.pointsAwarded)).sum := by
  cases hfind : tp.find? (fun p => p.user == uid) with
  | none =>
    have hnil : tp.filter (fun p => p.user == uid) = [] := by
      apply List.filter_eq_nil_iff.mpr
      intro p hp
      exact List.find?_eq_none.mp hfind p hp
    rw [hnil]
    rfl
  | some p =>
    have hp : (p.user == uid) = true := by simpa using List.find?_some hfind
    have hpmem : p ∈ tp := List.mem_of_find?_eq_some hfind
    rw [filter_singleton_of_mem tp _ p h hpmem hp]
    simp

/-- C1: after `recalcUserTotals` completes successfully for a user,
the user's `totalPoints` equals the exact sum of `pointsAwarded` over
all of that user's prediction records of every category (Group, Match,
Knockout, Tournament; an absent or empty category contributing zero),
`correctMatches` equals the count of the user's Match predictions with
`isCorrectWinner` set, and `correctScores` the count with
`isCorrectScore` set.  The tournament collection is read with
`findOne`, so the schema's unique index (at most one tournament
prediction per user) appears as a hypothesis. -/
theorem recalc_aggregate_consistency (s : ServerState) (uid : Nat) (u : UserRec)
    (hu : s.users.find? (fun v => v.id == uid) = some u)
    (huniq : (s.tournamentPreds.filter (fun p => p.user == uid)).length ≤ 1) :
    ∃ w, (recalcUserTotals s uid).users.find? (fun v => v.id == uid) = some w
      ∧ w.totalPoints =
          ((s.groupPreds.filter (fun p => p.user == uid)).map (fun p => p.pointsAwarded)).sum
          + ((s.matchPreds.filter (fun p => p.user == uid)).map (fun p => p.pointsAwarded)).sum
          + ((s.knockoutPreds.filter (fun p => p.user == uid)).map (fun p => p.pointsAwarded)).sum
          + ((s.tournamentPreds.filter (fun p => p.user == uid)).map (fun p => p.pointsAwarded)).sum
      ∧ w.correctMatches =
          (((s.matchPreds.filter (fun p => p.user == uid)).filter (fun p => p.isCorrectWinner)).length : Int)
      ∧ w.correctScores =
          (((s.matchPreds.filter (fun p => p.user == uid)).filter (fun p => p.isCorrectScore)).length : Int) := by
  have hid : (u.id == uid) = true := by simpa using List.find?_some hu
  refine ⟨setAggregates u (aggOf s uid), ?_, ?_, ?_, ?_⟩
  · rw [recalcUserTotals_users, List.find?_map]
    have hcomp : ((fun v : UserRec => v.id == uid) ∘ fun v => applyAggStep (aggOf s) v uid)
        = fun v : UserRec => v.id == uid := by
      funext v
      simp [Function.comp, applyAggStep_id]
    rw [hcomp, hu]
    have hid2 : u.id = uid := by simpa using hid
    simp [applyAggStep, hid2]
  · show (aggOf s uid).1 = _
    simp only [aggOf, recalcTotals]
    rw [tournament_findOne_sum s.tournamentPreds uid huniq]
  · show (aggOf s uid).2.1 = _
    simp only [aggOf, recalcTotals]
  · show (aggOf s uid).2.2 = _
    simp only [aggOf, recalcTotals]

/-- Concrete store exercising every prediction category, used to
witness `recalc_aggregate_consistency`. -/
def c1State : ServerState where
  users := [⟨7, 0, 0, 0⟩]
  matchRecs := []
  matchPreds := [⟨1, 7, 1, 2, 0, Winner.HOME, 8, true, true⟩,
                 ⟨2, 7, 2, 0, 0, Winner.DRAW, 3, true, false⟩]
  groupPreds := [⟨1, 7, 'A', 1, 2, none, 8⟩]
  knockoutPreds := [⟨1, 7, Stage.Final, none, 5, 10⟩]
  tournamentPreds := [⟨1, 7, 4⟩]

theorem recalc_aggregate_consistency_witness :
    ∃ w, (recalcUserTotals c1State 7).users.find? (fun v => v.id == 7) = some w
      ∧ w.totalPoints =
          ((c1State.groupPreds.filter (fun p => p.user == 7)).map (fun p => p.pointsAwarded)).sum
          + ((c1State.matchPreds.filter (fun p => p.user == 7)).map (fun p => p.pointsAwarded)).sum
          + ((c1State.knockoutPreds.filter (fun p => p.user == 7)).map (fun p => p.pointsAwarded)).sum
          + ((c1State.tournamentPreds.filter (fun p => p.user == 7)).map (fun p => p.pointsAwarded)).sum
      ∧ w.correctMatches =
          (((c1State.matchPreds.filter (fun p => p.user == 7)).filter (fun p => p.isCorrectWinner)).length : Int)
      ∧ w.correctScores =
          (((c1State.matchPreds.filter (fun p => p.user == 7)).filter (fun p => p.isCorrectScore)).length : Int) :=
  recalc_aggregate_consistency c1State 7 ⟨7, 0, 0, 0⟩ (by decide) (by decide)

theorem scoreMatchPrediction_matchId (m : MatchRec) (p : MatchPred) :
    (scoreMatchPrediction m p).matchId = p.matchId := rfl

theorem scoreMatchPrediction_user (m : MatchRec) (p : MatchPred) :
    (scoreMatchPrediction m p).user = p.user := rfl

theorem scoreMatchPrediction_idem (m : MatchRec) (p : MatchPred) :
    scoreMatchPrediction m (scoreMatchPrediction m p) = scoreMatchPrediction m p := rfl

theorem scoreMap_matchId (m : MatchRec) (p : MatchPred) :
    (if p.matchId == m.id then scoreMatchPrediction m p else p).matchId = p.matchId := by
  split <;> rfl

theorem scoreMap_idem (m : MatchRec) (l : List MatchPred) :
    ((l.map (fun p => if p.matchId == m.id then scoreMatchPrediction m p else p)).map
        (fun p => if p.matchId == m.id then scoreMatchPrediction m p else p))
      = l.map (fun p => if p.matchId == m.id then scoreMatchPrediction m p else p) := by
  rw [List.map_map]
  apply List.map_congr_left
  intro p _
  show (if (if p.matchId == m.id then scoreMatchPrediction m p else p).matchId == m.id then
          scoreMatchPrediction m (if p.matchId == m.id then scoreMatchPrediction m p else p)
        else (if p.matchId == m.id then scoreMatchPrediction m p else p))
      = if p.matchId == m.id then scoreMatchPrediction m p else p
  by_cases hp : (p.matchId == m.id) = true
  · simp [hp, scoreMatchPrediction_matchId, scoreMatchPrediction_idem]
  · simp [hp]

theorem scoreMap_affected (m : MatchRec) (l : List MatchPred) :
    (((l.map (fun p => if p.matchId == m.id then scoreMatchPrediction m p else p)).filter
        (fun p => p.matchId == m.id)).map (fun p => p.user))
      = ((l.filter (fun p => p.matchId == m.id)).map (fun p => p.user)) := by
  rw [List.filter_map]
  have hpred : ((fun p : MatchPred => p.matchId == m.id)
        ∘ fun p => if p.matchId == m.id then scoreMatchPrediction m p else p)
      = fun p : MatchPred => p.matchId == m.id := by
    funext p
    by_cases hc : (p.matchId == m.id) = true
    · simp [Function.comp, hc, scoreMatchPrediction_matchId]
    · simp [Function.comp, hc]
  rw [hpred, List.map_map]
  apply List.map_congr_left
  intro p hp
  have : (p.matchId == m.id) = true := (List.mem_filter.mp hp).2
  simp [Function.comp, this, scoreMatchPrediction_user]

theorem calcMatchPoints_eq (s : ServerState) (mid : Nat) (m : MatchRec)
    (hm : s.matchRecs.find? (fun x => x.id == mid) = some m)
    (hst : m.status = MatchStatus.Finished) :
    calculateMatchPointsForAllUsers s mid
      = foldRecalc
          { s with matchPreds := s.matchPreds.map (fun p =>
              if p.matchId == m.id then scoreMatchPrediction m p else p) }
          (jsSetDedup ((s.matchPreds.filter (fun p => p.matchId == m.id)).map (fun p => p.user))) := by
  simp only [calculateMatchPointsForAllUsers, hm, hst, if_true]

/-- C2: result finalization is idempotent.  For a finished match with
both scores present, running `calculateMatchPointsForAllUsers` (which
overwrites each prediction's `pointsAwarded` and correctness flags
with freshly computed values and then recomputes every affected user's
aggregates) twice in a row with no intervening changes produces
exactly the state produced by the first run. -/
theorem finalize_idempotent (s : ServerState) (mid : Nat) (m : MatchRec) (h a : Int)
    (hm : s.matchRecs.find? (fun x => x.id == mid) = some m)
    (hst : m.status = MatchStatus.Finished)
    (hh : m.homeScore = some h) (ha : m.awayScore = some a) :
    calculateMatchPointsForAllUsers (calculateMatchPointsForAllUsers s mid) mid
      = calculateMatchPointsForAllUsers s mid := by
  rw [calcMatchPoints_eq s mid m hm hst]
  set S1 : ServerState := { s with matchPreds := s.matchPreds.map (fun p =>
      if p.matchId == m.id then scoreMatchPrediction m p else p) } with hS1
  set A : List Nat := jsSetDedup ((s.matchPreds.filter (fun p => p.matchId == m.id)).map
      (fun p => p.user)) with hA
  have hfind2 : (foldRecalc S1 A).matchRecs.find? (fun x => x.id == mid) = some m := by
    rw [foldRecalc_matchRecs, hS1]
    exact hm
  rw [calcMatchPoints_eq _ mid m hfind2 hst]
  have hTm : (foldRecalc S1 A).matchPreds
      = s.matchPreds.map (fun p => if p.matchId == m.id then scoreMatchPrediction m p else p) := by
    rw [foldRecalc_matchPreds, hS1]
  rw [hTm, scoreMap_idem, scoreMap_affected, ← hA]
  have hrec : ({ foldRecalc S1 A with matchPreds := s.matchPreds.map (fun p =>
      if p.matchId == m.id then scoreMatchPrediction m p else p) } : ServerState)
      = foldRecalc S1 A := by
    rw [← hTm]
  rw [hrec]
  exact foldRecalc_idem S1 A

/-- Concrete store with a finished match and two predictions by two
users, used to witness `finalize_idempotent`. -/
def c2State : ServerState where
  users := [⟨1, 0, 0, 0⟩, ⟨2, 0, 0, 0⟩]
  matchRecs := [⟨5, 10, 11, some 2, some 0, Phase.GroupStage, MatchStatus.Finished⟩]
  matchPreds := [⟨1, 1, 5, 2, 0, Winner.HOME, 0, false, false⟩,
                 ⟨2, 2, 5, 1, 1, Winner.DRAW, 0, false, false⟩]
  groupPreds := []
  knockoutPreds := []
  tournamentPreds := []

theorem finalize_idempotent_witness :
    calculateMatchPointsForAllUsers (calculateMatchPointsForAllUsers c2State 5) 5
      = calculateMatchPointsForAllUsers c2State 5 :=
  finalize_idempotent c2State 5
    ⟨5, 10, 11, some 2, some 0, Phase.GroupStage, MatchStatus.Finished⟩ 2 0
    (by decide) (by decide) (by decide) (by decide)

/-- Store with a stale `totalPoints` of 100 for user 1 and a single
group prediction with 0 stored points. -/
def c3State : ServerState where
  users := [⟨1, 100, 0, 0⟩]
  matchRecs := []
  matchPreds := []
  groupPreds := [⟨1, 1, 'A', 10, 11, none, 0⟩]
  knockoutPreds := []
  tournamentPreds := []

/-- Standings under which the stored prediction earns 5 points. -/
def c3Standings : GroupStandings := ⟨10, 99, 98⟩

/-- C3 (refuted by the code): `recalcUserTotals` is not the only
writer of the aggregate fields.  The group calculate-points handler
writes `user.totalPoints = (user.totalPoints || 0) - oldPoints + points`
directly: starting from a stale total of 100 it produces 105, while
the sanctioned aggregate recomputation run on the very same
predictions produces 5. -/
theorem group_handler_mutates_aggregates :
    ((calcGroupPointsEndpoint c3State 1 'A' c3Standings).users.map (fun u => u.totalPoints)) = [105]
  ∧ (calcGroupPointsEndpoint c3State 1 'A' c3Standings).users ≠ c3State.users
  ∧ ((recalcUserTotals (calcGroupPointsEndpoint c3State 1 'A' c3Standings) 1).users.map
      (fun u => u.totalPoints)) = [5] := by
  decide

/-- Match record of the C4 scenario: final result HOME 2-0 AWAY. -/
def c4Match : MatchRec := ⟨9, 1, 2, some 2, some 0, Phase.GroupStage, MatchStatus.Finished⟩

/-- Prediction HOME 2-0 of the C4 scenario. -/
def c4PredExact : MatchPred := ⟨1, 1, 9, 2, 0, Winner.HOME, 0, false, false⟩

/-- Prediction HOME 1-0 of the C4 scenario. -/
def c4PredWinnerOnly : MatchPred := ⟨2, 2, 9, 1, 0, Winner.HOME, 0, false, false⟩

/-- C4: for a finished match with both scores present the actual
winner is HOME when home leads, AWAY when away leads, DRAW on a level
score; `isCorrectWinner` holds iff the predicted winner equals the
actual winner; `isCorrectScore` holds iff `isCorrectWinner` holds and
both predicted goal counts equal the actual scores; the points awarded
are 3 per correct winner plus 5 per correct exact score; and in the
spec's scenario HOME 2-0 with prediction HOME 2-0 earns 8 with both
flags set while HOME 1-0 earns 3 with `isCorrectScore` false. -/
theorem match_scorer_spec (m : MatchRec) (p : MatchPred) (h a : Int)
    (hh : m.homeScore = some h) (ha : m.awayScore = some a) :
    (computeActualWinner m.homeScore m.awayScore = Winner.HOME ↔ h > a)
  ∧ (computeActualWinner m.homeScore m.awayScore = Winner.AWAY ↔ a > h)
  ∧ (computeActualWinner m.homeScore m.awayScore = Winner.DRAW ↔ h = a)
  ∧ ((scoreMatchPrediction m p).isCorrectWinner = true
      ↔ p.winnerPred = computeActualWinner m.homeScore m.awayScore)
  ∧ ((scoreMatchPrediction m p).isCorrectScore = true
      ↔ ((scoreMatchPrediction m p).isCorrectWinner = true
          ∧ p.homeGoalsPred = h ∧ p.awayGoalsPred = a))
  ∧ ((scoreMatchPrediction m p).pointsAwarded
      = (if (scoreMatchPrediction m p).isCorrectWinner then 3 else 0)
        + (if (scoreMatchPrediction m p).isCorrectScore then 5 else 0))
  ∧ scoreMatchPrediction c4Match c4PredExact
      = { c4PredExact with pointsAwarded := 8, isCorrectWinner := true, isCorrectScore := true }
  ∧ scoreMatchPrediction c4Match c4PredWinnerOnly
      = { c4PredWinnerOnly with pointsAwarded := 3, isCorrectWinner := true, isCorrectScore := false } := by
  have hw : computeActualWinner m.homeScore m.awayScore
      = if h > a then Winner.HOME else if a > h then Winner.AWAY else Winner.DRAW := by
    simp [computeActualWinner, jsGt, hh, ha]
  refine ⟨?_, ?_, ?_, ?_, ?_, ?_, by decide, by decide⟩
  · rw [hw]
    split_ifs <;> simp_all <;> omega
  · rw [hw]
    split_ifs <;> simp_all <;> omega
  · rw [hw]
    split_ifs <;> simp_all <;> omega
  · simp [scoreMatchPrediction]
  · simp only [scoreMatchPrediction, jsStrictEq, hh, ha]
    simp [and_assoc]
  · simp [scoreMatchPrediction]

theorem match_scorer_spec_witness :
    (computeActualWinner c4Match.homeScore c4Match.awayScore = Winner.HOME ↔ (2:Int) > 0)
  ∧ ((scoreMatchPrediction c4Match c4PredExact).isCorrectScore = true
      ↔ ((scoreMatchPrediction c4Match c4PredExact).isCorrectWinner = true
          ∧ c4PredExact.homeGoalsPred = 2 ∧ c4PredExact.awayGoalsPred = 0)) :=
  ⟨(match_scorer_spec c4Match c4PredExact 2 0 rfl rfl).1,
   (match_scorer_spec c4Match c4PredExact 2 0 rfl rfl).2.2.2.2.1⟩

/-- C5: group scoring awards 5/3/2 for correct 1st/2nd/3rd placements
and a +5 bonus exactly when the raw sum is 10 (which happens only with
all three correct), so a fully correct prediction scores exactly 15
and the value 10 or 20 is never produced; a prediction without a
third-place team earns exactly its 1st/2nd placement points (no third
points, no bonus), and no prediction ever scores below its 1st/2nd
placement points. -/
theorem group_scorer_spec (p : GroupPred) (st : GroupStandings) :
    ((p.firstPlaceTeam = st.first ∧ p.secondPlaceTeam = st.second
        ∧ p.thirdPlaceTeam = some st.third) → groupPointsFor p st = 15)
  ∧ groupPointsFor p st ≠ 10
  ∧ groupPointsFor p st ≠ 20
  ∧ (p.thirdPlaceTeam = none →
      groupPointsFor p st
        = (if p.firstPlaceTeam = st.first then 5 else 0)
          + (if p.secondPlaceTeam = st.second then 3 else 0))
  ∧ ((if p.firstPlaceTeam = st.first then (5:Int) else 0)
      + (if p.secondPlaceTeam = st.second then 3 else 0) ≤ groupPointsFor p st) := by
  cases hthird : p.thirdPlaceTeam with
  | none =>
    refine ⟨?_, ?_, ?_, ?_, ?_⟩ <;>
      simp only [groupPointsFor, hthird] <;> split_ifs <;> simp_all <;> omega
  | some t =>
    refine ⟨?_, ?_, ?_, ?_, ?_⟩ <;>
      simp only [groupPointsFor, hthird] <;> split_ifs <;> simp_all <;> omega

/-- Fully correct group prediction used to witness `group_scorer_spec`. -/
def c5Pred : GroupPred := ⟨1, 1, 'B', 21, 22, some 23, 0⟩

/-- Standings matching `c5Pred` on all three placements. -/
def c5Standings : GroupStandings := ⟨21, 22, 23⟩

theorem group_scorer_spec_witness :
    groupPointsFor c5Pred c5Standings = 15 :=
  (group_scorer_spec c5Pred c5Standings).1 (by decide)

theorem find_by_unique_key {α : Type} (key : α → Nat) (l : List α) (x : α)
    (hn : (l.map key).Nodup) (hx : x ∈ l) :
    l.find? (fun y => key y == key x) = some x := by
  induction l with
  | nil => cases hx
  | cons b t ih =>
    rcases List.mem_cons.mp hx with hbx | hxt
    · subst hbx
      exact List.find?_cons_of_pos _ (by simp)
    · by_cases hb : key b = key x
      · exfalso
        have hmem : key x ∈ t.map key := List.mem_map_of_mem key hxt
        have hout : key b ∉ t.map key := (List.nodup_cons.mp (by simpa using hn)).1
        rw [hb] at hout
        exact hout hmem
      · rw [List.find?_cons_of_neg _ (by simp [hb])]
        exact ih (List.nodup_cons.mp (by simpa using hn)).2 hxt

/-- C6: in the knockout results query, a prediction whose linked match
is a finished knockout match with equal scores gets `isCorrect = null`
and `pointsEarned = 0`, an outcome distinct from a wrong guess (which
gets `isCorrect = false`); on a decided match a correct predicted
winner earns exactly the stage value of the table (Round of 32: 1,
Round of 16: 2, Quarter Finals: 3, Semi Finals: 5, Third Place: 3,
Final: 10) and a wrong one earns 0. -/
theorem knockout_results_spec (ms : List MatchRec) (p : KnockoutPred) (m : MatchRec)
    (hn : (ms.map (fun x => x.id)).Nodup)
    (hm : m ∈ ms) (href : p.matchRef = some m.id)
    (hph : isKnockoutPhase m.phase = true) (hst : m.status = MatchStatus.Finished) :
    (∀ k : Int, m.homeScore = some k → m.awayScore = some k →
        knockoutEval ms p = (none, 0))
  ∧ (∀ hw aw : Int, m.homeScore = some hw → m.awayScore = some aw → hw > aw →
      (p.predictedWinnerTeam = m.homeTeam →
          knockoutEval ms p = (some true, phasePoints p.stage))
      ∧ (p.predictedWinnerTeam ≠ m.homeTeam →
          knockoutEval ms p = (some false, 0)))
  ∧ (∀ hw aw : Int, m.homeScore = some hw → m.awayScore = some aw → aw > hw →
      (p.predictedWinnerTeam = m.awayTeam →
          knockoutEval ms p = (some true, phasePoints p.stage))
      ∧ (p.predictedWinnerTeam ≠ m.awayTeam →
          knockoutEval ms p = (some false, 0)))
  ∧ ((none : Option Bool) ≠ some false)
  ∧ (phasePoints Stage.RoundOf32 = 1 ∧ phasePoints Stage.RoundOf16 = 2
      ∧ phasePoints Stage.QuarterFinals = 3 ∧ phasePoints Stage.SemiFinals = 5
      ∧ phasePoints Stage.ThirdPlace = 3 ∧ phasePoints Stage.Final = 10) := by
  have hfilter : m ∈ ms.filter (fun x => isKnockoutPhase x.phase
      && decide (x.status = MatchStatus.Finished)) :=
    List.mem_filter.mpr ⟨hm, by simp [hph, hst]⟩
  have hnod : ((ms.filter (fun x => isKnockoutPhase x.phase
      && decide (x.status = MatchStatus.Finished))).map (fun x => x.id)).Nodup :=
    List.Nodup.sublist (List.Sublist.map _ (List.filter_sublist ms)) hn
  have hfind : (ms.filter (fun x => isKnockoutPhase x.phase
      && decide (x.status = MatchStatus.Finished))).find? (fun y => y.id == m.id) = some m :=
    find_by_unique_key (fun x => x.id) _ m hnod hfilter
  have heval : knockoutEval ms p
      = (match koWinnerId m with
         | none => (none, 0)
         | some wid => (some (p.predictedWinnerTeam == wid),
             if (p.predictedWinnerTeam == wid) then phasePoints p.stage else 0)) := by
    simp only [knockoutEval, href, hfind]
  refine ⟨?_, ?_, ?_, by simp, by refine ⟨rfl, rfl, rfl, rfl, rfl, rfl⟩⟩
  · intro k hk1 hk2
    rw [heval]
    simp [koWinnerId, jsGt, hk1, hk2]
  · intro hw aw h1 h2 hgt
    have hko : koWinnerId m = some m.homeTeam := by
      simp [koWinnerId, jsGt, h1, h2, hgt]
    refine ⟨fun heq => ?_, fun hne => ?_⟩
    · rw [heval, hko]
      simp [heq]
    · rw [heval, hko]
      simp [hne]
  · intro hw aw h1 h2 hgt
    have hnotgt : ¬ (hw > aw) := by omega
    have hko : koWinnerId m = some m.awayTeam := by
      simp [koWinnerId, jsGt, h1, h2, hnotgt, hgt]
    refine ⟨fun heq => ?_, fun hne => ?_⟩
    · rw [heval, hko]
      simp [heq]
    · rw [heval, hko]
      simp [hne]

/-- Finished Final that ended in a draw. -/
def c6Match : MatchRec := ⟨1, 3, 4, some 1, some 1, Phase.Final, MatchStatus.Finished⟩

/-- Store containing only the drawn Final. -/
def c6Matches : List MatchRec := [c6Match]

/-- Knockout prediction linked to the drawn Final. -/
def c6Pred : KnockoutPred := ⟨1, 1, Stage.Final, some 1, 3, 0⟩

theorem knockout_results_spec_witness :
    knockoutEval c6Matches c6Pred = (none, 0) :=
  (knockout_results_spec c6Matches c6Pred c6Match (by decide) (by decide)
    (by decide) (by decide) (by decide)).1 1 rfl rfl

theorem scorePredsLoop_abort (failIds : List Nat) (m : MatchRec)
    (l r : List MatchPred) (p : MatchPred)
    (hl : ∀ q ∈ l, (q.matchId == m.id) = true → failIds.contains q.id = false)
    (hp : (p.matchId == m.id) = true) (hf : failIds.contains p.id = true) :
    scorePredsLoop failIds m (l ++ p :: r)
      = (l.map (fun q => if q.matchId == m.id then scoreMatchPrediction m q else q)
          ++ p :: r, some p.id) := by
  induction l with
  | nil =>
    simp only [List.nil_append, List.map_nil]
    unfold scorePredsLoop
    rw [if_pos hp, if_pos hf]
  | cons q t ih =>
    have hrest := ih (fun x hx hxm => hl x (List.mem_cons_of_mem q hx) hxm)
    by_cases hqm : (q.matchId == m.id) = true
    · have hqf : failIds.contains q.id = false := hl q (List.mem_cons_self q t) hqm
      have hq2 : q.matchId = m.id := by simpa using hqm
      show scorePredsLoop failIds m (q :: (t ++ p :: r)) = _
      unfold scorePredsLoop
      rw [if_pos hqm, if_neg (by rw [hqf]; simp), hrest]
      simp [hq2]
    · have hq2 : ¬ q.matchId = m.id := by simpa using hqm
      show scorePredsLoop failIds m (q :: (t ++ p :: r)) = _
      unfold scorePredsLoop
      rw [if_neg hqm, hrest]
      simp [hq2]

/-- Finished match of the C7 scenario. -/
def c7Match : MatchRec := ⟨1, 7, 8, some 2, some 0, Phase.GroupStage, MatchStatus.Finished⟩

/-- Store with two predictions (two users) on the finished match; the
save of prediction 1 is the one that will reject. -/
def c7State : ServerState where
  users := [⟨1, 0, 0, 0⟩, ⟨2, 0, 0, 0⟩]
  matchRecs := [c7Match]
  matchPreds := [⟨1, 1, 1, 2, 0, Winner.HOME, 0, false, false⟩,
                 ⟨2, 2, 1, 2, 0, Winner.HOME, 0, false, false⟩]
  groupPreds := []
  knockoutPreds := []
  tournamentPreds := []

/-- C7 (refuted as stated): when saving prediction 1 fails, the
finalization loop does not skip it and continue — it aborts.  The
error propagates (second component `some 1`, answered as a 500, not a
success/failure summary), prediction 2 is left unscored (its
`pointsAwarded` stays 0 although scoring it would store 8), and no
aggregate recomputation happens. -/
theorem batch_failure_counterexample :
    (calculateMatchPointsE [1] c7State 1).2 = some 1
  ∧ ((calculateMatchPointsE [1] c7State 1).1.matchPreds.map (fun q => q.pointsAwarded)) = [0, 0]
  ∧ (scoreMatchPrediction c7Match ⟨2, 2, 1, 2, 0, Winner.HOME, 0, false, false⟩).pointsAwarded = 8
  ∧ ((calculateMatchPointsE [1] c7State 1).1.users.map (fun u => u.totalPoints)) = [0, 0] := by
  decide

/-- C7 (amended): the batch scoring loop of a finished match has no
per-item error handling.  When the first failing save is reached,
predictions scored before it keep their freshly written scores, the
failing prediction and every following one are left untouched, no
aggregate recomputation runs, and the failure id propagates to the
caller (a 500 response) instead of a success/per-item-failure
summary. -/
theorem batch_failure_aborts (failIds : List Nat) (s : ServerState) (mid : Nat)
    (m : MatchRec) (l r : List MatchPred) (p : MatchPred)
    (hm : s.matchRecs.find? (fun x => x.id == mid) = some m)
    (hst : m.status = MatchStatus.Finished)
    (hsplit : s.matchPreds = l ++ p :: r)
    (hl : ∀ q ∈ l, (q.matchId == m.id) = true → failIds.contains q.id = false)
    (hp : (p.matchId == m.id) = true) (hf : failIds.contains p.id = true) :
    calculateMatchPointsE failIds s mid
      = ({ s with matchPreds := l.map (fun q =>
              if q.matchId == m.id then scoreMatchPrediction m q else q) ++ p :: r },
         some p.id) := by
  simp only [calculateMatchPointsE, hm, hst, if_true]
  rw [hsplit, scorePredsLoop_abort failIds m l r p hl hp hf]

theorem batch_failure_aborts_witness :
    calculateMatchPointsE [1] c7State 1
      = ({ c7State with matchPreds :=
            ([] : List MatchPred).map (fun q =>
              if q.matchId == c7Match.id then scoreMatchPrediction c7Match q else q)
            ++ (⟨1, 1, 1, 2, 0, Winner.HOME, 0, false, false⟩ : MatchPred)
              :: [⟨2, 2, 1, 2, 0, Winner.HOME, 0, false, false⟩] },
         some 1) :=
  batch_failure_aborts [1] c7State 1 c7Match []
    [⟨2, 2, 1, 2, 0, Winner.HOME, 0, false, false⟩]
    ⟨1, 1, 1, 2, 0, Winner.HOME, 0, false, false⟩
    (by decide) (by decide) rfl (by simp) (by decide) (by decide)

/-- Tie-break tuple of a user in ranking order: `totalPoints`, then
`correctScores`, then `correctMatches`. -/
def tupleOf (u : UserRec) : Int × Int × Int :=
  (u.totalPoints, u.correctScores, u.correctMatches)

theorem jsBetter_iff_lex (v u : UserRec) :
    jsBetter v u = true
      ↔ Prod.Lex (· > ·) (Prod.Lex (· > ·) (· > ·)) (tupleOf v) (tupleOf u) := by
  rw [Prod.lex_def, Prod.lex_def]
  simp only [jsBetter, tupleOf, Bool.or_eq_true, Bool.and_eq_true, decide_eq_true_eq,
    beq_iff_eq]
  tauto

/-- C8: the my-position query returns `position = 1 +` the number of
users whose tie-break tuple strictly precedes the user's own tuple
under descending lexicographic comparison, `totalRankedUsers` counts
only the users with `totalPoints > 0`, and the percentile is
`round((1 - position/totalRankedUsers) * 100)`, defined as 0 when
there are no ranked users. -/
theorem my_position_percentile_spec (users : List UserRec) (u : UserRec) :
    myPosition users u
      = 1 + users.countP (fun v =>
          decide (Prod.Lex (· > ·) (Prod.Lex (· > ·) (· > ·)) (tupleOf v) (tupleOf u)))
  ∧ rankedUsersCount users = users.countP (fun v => decide (v.totalPoints > 0))
  ∧ (rankedUsersCount users > 0 →
      myPercentile users u
        = jsRound ((1 - (myPosition users u : ℚ) / (rankedUsersCount users : ℚ)) * 100))
  ∧ (rankedUsersCount users = 0 → myPercentile users u = 0) := by
  refine ⟨?_, ?_, ?_, ?_⟩
  · unfold myPosition betterUsersCount
    rw [← List.countP_eq_length_filter, Nat.add_comm]
    congr 1
    apply List.countP_congr
    intro v _
    rw [decide_eq_true_eq]
    exact jsBetter_iff_lex v u
  · unfold rankedUsersCount
    rw [← List.countP_eq_length_filter]
  · intro hpos
    simp only [myPercentile]
    rw [if_pos hpos]
  · intro hzero
    simp only [myPercentile]
    rw [hzero]
    simp

/-- Two-user store used to witness `my_position_percentile_spec`. -/
def c8Users : List UserRec := [⟨1, 5, 1, 2⟩, ⟨2, 3, 0, 0⟩]

theorem my_position_percentile_spec_witness :
    myPercentile c8Users ⟨2, 3, 0, 0⟩
      = jsRound ((1 - (myPosition c8Users ⟨2, 3, 0, 0⟩ : ℚ)
          / (rankedUsersCount c8Users : ℚ)) * 100) :=
  (my_position_percentile_spec c8Users ⟨2, 3, 0, 0⟩).2.2.1 (by decide)

/-- C9: the two ranking queries disagree on ties.  Users with
identical tie-break tuples receive the same `position` from the
my-position query, while the paginated leaderboard attaches the
pairwise distinct positions `skip + i + 1` to the entries of the
sorted slice, so two tied users occupying two slice indices are shown
distinct (consecutive by index) positions. -/
theorem ranking_tie_disagreement (users : List UserRec) (u v : UserRec)
    (page limit : Nat)
    (h1 : u.totalPoints = v.totalPoints) (h2 : u.correctScores = v.correctScores)
    (h3 : u.correctMatches = v.correctMatches) :
    myPosition users u = myPosition users v
  ∧ (∀ i, ∀ hi : i < (leaderboardPage users page limit).length,
      ((leaderboardPage users page limit).get ⟨i, hi⟩).1 = (page - 1) * limit + i + 1)
  ∧ (∀ i j, ∀ hi : i < (leaderboardPage users page limit).length,
      ∀ hj : j < (leaderboardPage users page limit).length, i ≠ j →
      ((leaderboardPage users page limit).get ⟨i, hi⟩).1
        ≠ ((leaderboardPage users page limit).get ⟨j, hj⟩).1) := by
  have hget : ∀ i, ∀ hi : i < (leaderboardPage users page limit).length,
      ((leaderboardPage users page limit).get ⟨i, hi⟩).1 = (page - 1) * limit + i + 1 := by
    intro i hi
    simp only [leaderboardPage, List.get_eq_getElem, List.getElem_map, List.getElem_enum]
  refine ⟨?_, hget, ?_⟩
  · unfold myPosition betterUsersCount
    congr 1
    have hsame : (users.filter (fun w => jsBetter w u)) = (users.filter (fun w => jsBetter w v)) := by
      apply List.filter_congr
      intro w _
      simp [jsBetter, h1, h2, h3]
    rw [hsame]
  · intro i j hi hj hne
    rw [hget i hi, hget j hj]
    omega

/-- Store with two users tied on the full tuple, used to witness
`ranking_tie_disagreement`. -/
def c9Users : List UserRec := [⟨1, 5, 3, 2⟩, ⟨2, 5, 3, 2⟩]

theorem ranking_tie_disagreement_witness :
    myPosition c9Users ⟨1, 5, 3, 2⟩ = myPosition c9Users ⟨2, 5, 3, 2⟩ :=
  (ranking_tie_disagreement c9Users ⟨1, 5, 3, 2⟩ ⟨2, 5, 3, 2⟩ 1 50 rfl rfl rfl).1

/-- Users of the C10 scenario: one ranked user with 10 points and two
zero-point users that differ on the tie-break field `correctScores`. -/
def c10Users : List UserRec := [⟨1, 10, 0, 0⟩, ⟨2, 0, 0, 1⟩, ⟨3, 0, 0, 0⟩]

/-- C10: the percentile returned by the my-position query is not
bounded to [0, 100].  Position is counted among all users (zero-point
users included) while `totalRankedUsers` counts only users with
positive `totalPoints`, so the last zero-point user has position 3
with only 1 ranked user, and the returned percentile is -200. -/
theorem percentile_not_bounded :
    myPosition c10Users ⟨3, 0, 0, 0⟩ = 3
  ∧ rankedUsersCount c10Users = 1
  ∧ myPosition c10Users ⟨3, 0, 0, 0⟩ > rankedUsersCount c10Users
  ∧ myPercentile c10Users ⟨3, 0, 0, 0⟩ = -200
  ∧ myPercentile c10Users ⟨3, 0, 0, 0⟩ < 0 := by
  have h1 : myPosition c10Users ⟨3, 0, 0, 0⟩ = 3 := by decide
  have h2 : rankedUsersCount c10Users = 1 := by decide
  have hp : myPercentile c10Users ⟨3, 0, 0, 0⟩ = -200 := by
    simp only [myPercentile]
    rw [h1, h2]
    norm_num [jsRound]
  refine ⟨h1, h2, by decide, hp, by rw [hp]; decide⟩

end WorldCup
